import Mathlib

/-!
Verification of the Proxy Connection Engine of the ESP32 WiFi bridge
(`src/main.c`): buffer-pool resource management, the passthrough
forwarding loop of `handle_client_task`, the telemetry ring buffer and
running TTFB average of `log_request`, and the connection lifecycle.

Modelling conventions:
* Machine integers are `Nat`; `uint32` overflow is made explicit with
  `% UINT32_MOD` at the operations where it is reachable.
* The FreeRTOS mutexes (`buffer_pool_mutex`, `request_log_mutex`) are
  short-critical-section locks; the embedding is sequential, so a
  bounded `xSemaphoreTake` always succeeds and is elided.
* Sockets and tasks are modelled by explicit event traces: each
  iteration of the `select` loop is driven by an `IterEvent` recording
  what `select`/`recv` returned, and each `send` call inside the
  write-all loop is driven by a `SendOutcome`.
-/

/-- `MAX_CONCURRENT_CLIENTS` is a build-time constant; the pool is
modelled as a `List Bool` of `in_use` flags whose length is the
constant, so all results hold for every value of it. -/
def REQUEST_LOG_SIZE : Nat := 10

/-- `PROXY_TIMEOUT_MS` from `config.h`. -/
def PROXY_TIMEOUT_MS : Nat := 60000

/-- `PROXY_BUFFER_SIZE` from `config.h`: the `recv` chunk size bound. -/
def PROXY_BUFFER_SIZE : Nat := 2048

/-- FreeRTOS tick period in ms (ESP-IDF default 100 Hz tick rate). -/
def portTICK_PERIOD_MS : Nat := 10

/-- FreeRTOS millisecond-to-tick conversion. -/
def pdMS_TO_TICKS (ms : Nat) : Nat := ms / portTICK_PERIOD_MS

/-- Modulus of `uint32_t` arithmetic. -/
def UINT32_MOD : Nat := 4294967296

-- ===== Buffer Pool (`main.c` lines 122-174) =====

/-- `acquire_buffer_pair`: scan the pool for the first slot with
`in_use == false`, mark it used and return its index; `none` models the
`-1` returned when every slot is in use.  The returned list is the
updated pool. -/
def acquire_buffer_pair : List Bool → Option Nat × List Bool
  | [] => (none, [])
  | b :: rest =>
    if b then
      let r := acquire_buffer_pair rest
      (r.1.map (· + 1), b :: r.2)
    else (some 0, true :: rest)

/-- `release_buffer_pair`: clear `in_use` of slot `index`, guarded by
`index >= 0 && index < MAX_CONCURRENT_CLIENTS` exactly as in the C. -/
def release_buffer_pair (index : Int) (p : List Bool) : List Bool :=
  if 0 ≤ index ∧ index < (p.length : Int) then p.set index.toNat false else p

/-- Number of in-use slots of a pool. -/
def usedCount (p : List Bool) : Nat := p.count true

/-- One shared-pool operation: a connection attempt's acquire, or a
worker's release. -/
inductive PoolEvent
  | tryAcquire
  | release (index : Int)
deriving DecidableEq

/-- Effect of one pool operation on the pool. -/
def poolStep (p : List Bool) : PoolEvent → List Bool
  | .tryAcquire => (acquire_buffer_pair p).2
  | .release i => release_buffer_pair i p

/-- Pool state after a sequence of concurrent attempts/releases,
starting from the `init_buffer_pool` state (all slots free). -/
def runPool (max : Nat) (evs : List PoolEvent) : List Bool :=
  evs.foldl poolStep (List.replicate max false)

-- ===== Telemetry Log (`main.c` lines 54-103) =====

/-- `request_log_entry_t`. -/
structure request_log_entry_t where
  timestamp : Nat
  source_ip : Nat
  bytes_in : Nat
  bytes_out : Nat
  ttfb_ms : Nat
  result : Nat
  valid : Bool
deriving DecidableEq

/-- The telemetry globals: `request_log`, `request_log_index`,
`avg_ttfb_ms`, `ttfb_sample_count`. -/
structure LogState where
  request_log : List request_log_entry_t
  request_log_index : Nat
  avg_ttfb_ms : Nat
  ttfb_sample_count : Nat
deriving DecidableEq

/-- State established by `init_buffer_pool`: all entries invalid. -/
def initLogState : LogState :=
  ⟨List.replicate REQUEST_LOG_SIZE ⟨0, 0, 0, 0, 0, 0, false⟩, 0, 0, 0⟩

/-- `log_request`: write the next ring slot, advance the index mod
`REQUEST_LOG_SIZE`, and on `result == 0 && ttfb_ms > 0` update the
exponential moving average and the sample count (`uint32` arithmetic). -/
def log_request (ts source_ip bytes_in bytes_out ttfb_ms result : Nat)
    (s : LogState) : LogState :=
  let entry : request_log_entry_t :=
    ⟨ts, source_ip, bytes_in, bytes_out, ttfb_ms, result, true⟩
  let log' := s.request_log.set s.request_log_index entry
  let idx' := (s.request_log_index + 1) % REQUEST_LOG_SIZE
  if result = 0 ∧ 0 < ttfb_ms then
    let avg' :=
      if s.ttfb_sample_count = 0 then ttfb_ms
      else (s.avg_ttfb_ms * 4 + ttfb_ms) % UINT32_MOD / 5
    ⟨log', idx', avg', (s.ttfb_sample_count + 1) % UINT32_MOD⟩
  else ⟨log', idx', s.avg_ttfb_ms, s.ttfb_sample_count⟩

/-- Arguments of one completed `log_request` call. -/
structure LogCall where
  ts : Nat
  source_ip : Nat
  bytes_in : Nat
  bytes_out : Nat
  ttfb_ms : Nat
  result : Nat
deriving DecidableEq

/-- Apply one `log_request` call to the telemetry state. -/
def applyLog (s : LogState) (w : LogCall) : LogState :=
  log_request w.ts w.source_ip w.bytes_in w.bytes_out w.ttfb_ms w.result s

/-- Telemetry state after a sequence of completed exchanges. -/
def logMany (s : LogState) (ws : List LogCall) : LogState :=
  ws.foldl applyLog s

/-- The ring entry a completed call stores. -/
def entryOf (w : LogCall) : request_log_entry_t :=
  ⟨w.ts, w.source_ip, w.bytes_in, w.bytes_out, w.ttfb_ms, w.result, true⟩

/-- The reader's index arithmetic of `api_requests_handler` /
`ota_status_handler`: `(request_log_index - 1 - i + REQUEST_LOG_SIZE) %
REQUEST_LOG_SIZE`, rendered in `Nat` (for `idx < K` and `i < K` the C
`int` expression is the same value). -/
def readIdx (idx i : Nat) : Nat :=
  (idx + (REQUEST_LOG_SIZE - 1 - i)) % REQUEST_LOG_SIZE

-- ===== Write-all send loop (`main.c` lines 1521-1541 / 1576-1596) =====

/-- Outcome of one `send` call in the write-all loop: `accepted k`
models a return of `k ≥ 0` bytes; `wouldBlock w` models `-1` with
`EAGAIN`/`EWOULDBLOCK`, where `w` says whether the bounded 5 s
writability `select` succeeded; `sendError` models any other errno. -/
inductive SendOutcome
  | accepted (k : Nat)
  | wouldBlock (writableInTime : Bool)
  | sendError
deriving DecidableEq

/-- The write-all loop `while (total_sent < len) { send(...) }`.
Returns whether the loop completed (`total_sent` reached `len`) and the
byte segments actually handed to the socket, in order.  An exhausted
oracle with the loop still unfinished counts as not completed. -/
def send_all (chunk : List Nat) : Nat → List SendOutcome → Bool × List Nat
  | total, [] => (if chunk.length ≤ total then (true, []) else (false, []))
  | total, o :: rest =>
    if chunk.length ≤ total then (true, [])
    else
      match o with
      | .accepted k =>
        let seg := (chunk.drop total).take k
        let r := send_all chunk (total + seg.length) rest
        (r.1, seg ++ r.2)
      | .wouldBlock w =>
        if w then send_all chunk total rest else (false, [])
      | .sendError => (false, [])

/-- One direction of the passthrough relay: the sequence of `recv`
chunks of that direction, each with the oracle of its write-all loop;
forwarding stops at the first chunk whose write-all loop aborts. -/
def forwardDirection : List (List Nat × List SendOutcome) → Bool × List Nat
  | [] => (true, [])
  | (chunk, orc) :: rest =>
    let r := send_all chunk 0 orc
    if r.1 then
      let r2 := forwardDirection rest
      (r2.1, r.2 ++ r2.2)
    else (false, r.2)

-- ===== Forwarding loop of `handle_client_task` (lines 1471-1628) =====

/-- What a `recv` on a ready descriptor returned: `ret chunk` models a
return of `chunk.length` bytes (`0` = orderly peer close), `recvError`
a negative return. -/
inductive RecvOutcome
  | ret (chunk : List Nat) (sendOrc : List SendOutcome)
  | recvError
deriving DecidableEq

/-- What one `select` call reported: an error, or per-descriptor
readiness (`none`/`none` is the `ready == 0` polling slice). -/
inductive SelectResult
  | selErr
  | ready (client : Option RecvOutcome) (backend : Option RecvOutcome)
deriving DecidableEq

/-- One iteration of the forwarding loop: the tick count
`xTaskGetTickCount()` observed in it, and the `select` outcome. -/
structure IterEvent where
  now : Nat
  sel : SelectResult
deriving DecidableEq

/-- How the forwarding loop was left. -/
inductive ExitKind
  | selectError
  | idleTimeout
  | clientClosed
  | clientRecvError
  | backendClosed
  | backendRecvError
  | sendAbortToBackend
  | sendAbortToClient
deriving DecidableEq

/-- The locals of `handle_client_task` that the loop mutates, plus the
telemetry state and the byte streams delivered to each socket. -/
structure ConnState where
  source_ip : Nat
  last_activity : Nat
  request_start_time : Nat
  request_bytes_in : Nat
  request_bytes_out : Nat
  awaiting_first_byte : Bool
  current_ttfb_ms : Nat
  request_result : Nat
  telemetry : LogState
  sentToBackend : List Nat
  sentToClient : List Nat
deriving DecidableEq

/-- Loop-entry state (line 1471: `last_activity = xTaskGetTickCount()`). -/
def initConnState (ip t0 : Nat) (tel : LogState) : ConnState :=
  ⟨ip, t0, 0, 0, 0, false, 0, 0, tel, [], []⟩

/-- The client-readable branch (lines 1501-1558): on data, log the
previous exchange if a response was pending, start TTFB timing, run the
write-all loop toward the backend, then update activity and counters;
on `0` the peer closed; on error record `result = 2`. -/
def clientBranch (now : Nat) (r : RecvOutcome) (s : ConnState) :
    ConnState × Option ExitKind :=
  match r with
  | .ret chunk orc =>
    if 0 < chunk.length then
      let s1 :=
        if 0 < s.request_bytes_out ∧ ¬ s.awaiting_first_byte then
          { s with
            telemetry := log_request now s.source_ip s.request_bytes_in
              s.request_bytes_out s.current_ttfb_ms s.request_result s.telemetry,
            request_bytes_in := 0, request_bytes_out := 0,
            current_ttfb_ms := 0, request_result := 0 }
        else s
      let s2 :=
        if ¬ s1.awaiting_first_byte then
          { s1 with request_start_time := now, awaiting_first_byte := true }
        else s1
      let r := send_all chunk 0 orc
      let s3 := { s2 with sentToBackend := s2.sentToBackend ++ r.2 }
      if r.1 then
        ({ s3 with last_activity := now,
                   request_bytes_in := s3.request_bytes_in + chunk.length }, none)
      else (s3, some .sendAbortToBackend)
    else (s, some .clientClosed)
  | .recvError => ({ s with request_result := 2 }, some .clientRecvError)

/-- The backend-readable branch (lines 1561-1613): on data, clamp and
record TTFB if this is the first response byte, run the write-all loop
toward the client, then update activity and counters; on `0` the
backend closed; on error record `result = 2`. -/
def backendBranch (now : Nat) (r : RecvOutcome) (s : ConnState) :
    ConnState × Option ExitKind :=
  match r with
  | .ret chunk orc =>
    if 0 < chunk.length then
      let s1 :=
        if s.awaiting_first_byte then
          { s with
            current_ttfb_ms :=
              min ((now - s.request_start_time) * portTICK_PERIOD_MS) 65535,
            awaiting_first_byte := false }
        else s
      let r := send_all chunk 0 orc
      let s2 := { s1 with sentToClient := s1.sentToClient ++ r.2 }
      if r.1 then
        ({ s2 with last_activity := now,
                   request_bytes_out := s2.request_bytes_out + chunk.length }, none)
      else (s2, some .sendAbortToClient)
    else (s, some .backendClosed)
  | .recvError => ({ s with request_result := 2 }, some .backendRecvError)

/-- One iteration of the `while (1)` loop: `select` error breaks; the
empty-readiness slice checks idle time against `pdMS_TO_TICKS
(PROXY_TIMEOUT_MS)` and times out with `result = 1`; otherwise the
client branch runs, and if it neither broke nor jumped to cleanup, the
backend branch runs. -/
def loopStep (it : IterEvent) (s : ConnState) : ConnState × Option ExitKind :=
  match it.sel with
  | .selErr => (s, some .selectError)
  | .ready copt bopt =>
    match copt, bopt with
    | none, none =>
      if pdMS_TO_TICKS PROXY_TIMEOUT_MS < it.now - s.last_activity then
        ({ s with request_result := 1 }, some .idleTimeout)
      else (s, none)
    | _, _ =>
      let r1 :=
        match copt with
        | some rc => clientBranch it.now rc s
        | none => (s, none)
      match r1.2 with
      | some e => (r1.1, some e)
      | none =>
        match bopt with
        | some rb => backendBranch it.now rb r1.1
        | none => (r1.1, none)

/-- Run the forwarding loop on a trace of iterations; `none` means the
trace ended with the loop still running. -/
def runLoop (s : ConnState) : List IterEvent → ConnState × Option ExitKind
  | [] => (s, none)
  | it :: rest =>
    match loopStep it s with
    | (s', some e) => (s', some e)
    | (s', none) => runLoop s' rest

/-- The `cleanup:` label (lines 1616-1620): log the final exchange only
if any data was transferred. -/
def cleanup (ts : Nat) (s : ConnState) : LogState :=
  if 0 < s.request_bytes_in ∨ 0 < s.request_bytes_out then
    log_request ts s.source_ip s.request_bytes_in s.request_bytes_out
      s.current_ttfb_ms s.request_result s.telemetry
  else s.telemetry

-- ===== Whole worker `handle_client_task` (lines 1365-1628) =====

/-- Socket system calls the worker performs, in order.  `setsockopt`
calls (TTL, timeouts, `TCP_NODELAY`) and `fcntl` have no bearing on the
claims and are elided. -/
inductive SockOp
  | createBackendSocket
  | connectBackend
  | closeBackend
  | closeClient
deriving DecidableEq

/-- How the worker ended. -/
inductive TaskOutcome
  | rejected
  | socketCreateFailed
  | connectFailed
  | loopExited (e : ExitKind)
  | stillRunning
deriving DecidableEq

/-- Environment of one worker run: the shared pool at its acquire, the
fate of its `socket`/`connect` calls, and the loop's iteration trace. -/
structure TaskInput where
  pool : List Bool
  socketCreateOk : Bool
  connectOk : Bool
  trace : List IterEvent
  source_ip : Nat
deriving DecidableEq

/-- What one worker run did. -/
structure TaskResult where
  pool : List Bool
  ops : List SockOp
  outcome : TaskOutcome
  telemetry : LogState
deriving DecidableEq

/-- `handle_client_task`: acquire a buffer pair (reject the client if
none), create and connect the backend socket (releasing the pair and
closing everything on failure), run the forwarding loop, and on any
loop exit run `cleanup:`: final log entry (if bytes moved), release,
close both sockets.  `t0` is the tick at loop entry, `ts` the
`esp_timer` second count at cleanup, `tel` the telemetry state at
entry. -/
def handle_client_task (inp : TaskInput) (t0 ts : Nat) (tel : LogState) :
    TaskResult :=
  match acquire_buffer_pair inp.pool with
  | (none, p) => ⟨p, [.closeClient], .rejected, tel⟩
  | (some i, p) =>
    if inp.socketCreateOk = false then
      ⟨release_buffer_pair i p, [.createBackendSocket, .closeClient],
        .socketCreateFailed, tel⟩
    else if inp.connectOk = false then
      ⟨release_buffer_pair i p,
        [.createBackendSocket, .connectBackend, .closeBackend, .closeClient],
        .connectFailed, tel⟩
    else
      match runLoop (initConnState inp.source_ip t0 tel) inp.trace with
      | (s, some e) =>
        ⟨release_buffer_pair i p,
          [.createBackendSocket, .connectBackend, .closeBackend, .closeClient],
          .loopExited e, cleanup ts s⟩
      | (s, none) =>
        ⟨p, [.createBackendSocket, .connectBackend], .stillRunning, s.telemetry⟩

-- ===== Spec-modelled keep-alive timeout policy (reframing variant) =====

/-- Modelled from the spec: the TLS-terminating reframing variant's
timeout policy is not part of `src/` (only the passthrough forwarder
is); per §4.4, its idle timeout is tripled while the keep-alive flag is
set and reverts to the base timeout otherwise. -/
def effectiveIdleTimeout (keepAlive : Bool) (baseTimeout : Nat) : Nat :=
  if keepAlive then 3 * baseTimeout else baseTimeout

/-- Modelled from the spec: the reframing loop polls in slices and
terminates the connection at the first slice whose accumulated idle
time exceeds the effective timeout. -/
def keepAliveLoopTerminatesAt (keepAlive : Bool) (baseTimeout slice k : Nat) :
    Bool :=
  decide (effectiveIdleTimeout keepAlive baseTimeout < k * slice)

/-- Modelled from the spec: observing `Connection: close` from either
side clears the keep-alive flag. -/
def observeConnectionClose (_keepAlive : Bool) : Bool := false

-- ===== Helper lemmas: buffer pool =====

lemma acquire_length (p : List Bool) :
    (acquire_buffer_pair p).2.length = p.length := by
  induction p with
  | nil => rfl
  | cons b rest ih =>
    by_cases hb : b <;> simp [acquire_buffer_pair, hb, ih]

lemma acquire_some (p : List Bool) : ∀ (i : Nat) (p' : List Bool),
    acquire_buffer_pair p = (some i, p') → p' = p.set i true ∧ p[i]? = some false := by
  induction p with
  | nil => intro i p' h; simp [acquire_buffer_pair] at h
  | cons b rest ih =>
    intro i p' h
    by_cases hb : b
    · rcases hq : acquire_buffer_pair rest with ⟨o, q⟩
      simp only [acquire_buffer_pair, hb, if_true, hq] at h
      cases o with
      | none => simp at h
      | some j =>
        simp only [Option.map_some', Option.some.injEq, Prod.mk.injEq] at h
        obtain ⟨hji, hp'⟩ := h
        obtain ⟨hq1, hq2⟩ := ih j q hq
        subst hji hp' hq1
        simp [hb, hq2]
    · simp only [acquire_buffer_pair, hb, Bool.false_eq_true, if_false,
        Prod.mk.injEq, Option.some.injEq] at h
      obtain ⟨rfl, rfl⟩ := h
      have hb' : b = false := by simpa using hb
      simp [hb']

lemma acquire_all_used (p : List Bool) (h : ∀ b ∈ p, b = true) :
    acquire_buffer_pair p = (none, p) := by
  induction p with
  | nil => rfl
  | cons b rest ih =>
    have hb : b = true := h b (List.mem_cons_self b rest)
    have := ih (fun x hx => h x (List.mem_cons_of_mem b hx))
    simp [acquire_buffer_pair, hb, this]

lemma acquire_isSome_of_free (p : List Bool) : ∀ (i : Nat),
    p[i]? = some false → (acquire_buffer_pair p).1.isSome := by
  induction p with
  | nil => intro i h; simp at h
  | cons b rest ih =>
    intro i h
    by_cases hb : b
    · cases i with
      | zero => simp [hb] at h
      | succ j =>
        simp only [List.getElem?_cons_succ] at h
        have hs := ih j h
        rcases ho : (acquire_buffer_pair rest).1 with _ | j'
        · rw [ho] at hs; simp at hs
        · simp [acquire_buffer_pair, hb, ho]
    · simp [acquire_buffer_pair, hb]

lemma release_length (i : Int) (p : List Bool) :
    (release_buffer_pair i p).length = p.length := by
  unfold release_buffer_pair
  split <;> simp

lemma runPool_length (max : Nat) (evs : List PoolEvent) :
    (runPool max evs).length = max := by
  suffices h : ∀ (p : List Bool), (evs.foldl poolStep p).length = p.length by
    simpa [runPool] using h (List.replicate max false)
  induction evs with
  | nil => intro p; rfl
  | cons e rest ih =>
    intro p
    rw [List.foldl_cons]
    cases e with
    | tryAcquire =>
      rw [ih (poolStep p .tryAcquire)]
      simpa [poolStep] using acquire_length p
    | release i =>
      rw [ih (poolStep p (.release i))]
      simpa [poolStep] using release_length i p

lemma set_of_getElem? {α : Type} (l : List α) (n : Nat) (a : α)
    (h : l[n]? = some a) : l.set n a = l := by
  induction l generalizing n with
  | nil => simp at h
  | cons x xs ih =>
    cases n with
    | zero => simp at h; simp [h]
    | succ m => simp at h; simp [ih m h]

-- ===== Claim theorems: buffer pool =====

/-- C1: for every sequence of concurrent connection attempts, the
number of buffer-pool slots whose `in_use` flag is set never exceeds
`MAX_CONCURRENT_CLIENTS` (the pool length); when every slot is in use,
`acquire_buffer_pair` returns `-1` (`none`) leaving the pool unchanged,
and the worker closes the client socket and performs no other socket
operation — in particular it never creates or connects a socket to the
backend. -/
theorem spec_C1_pool_bound :
    (∀ (max : Nat) (evs : List PoolEvent), usedCount (runPool max evs) ≤ max)
    ∧ (∀ p : List Bool, usedCount p = p.length → acquire_buffer_pair p = (none, p))
    ∧ (∀ (inp : TaskInput) (t0 ts : Nat) (tel : LogState),
        usedCount inp.pool = inp.pool.length →
        (handle_client_task inp t0 ts tel).ops = [.closeClient]
        ∧ (handle_client_task inp t0 ts tel).outcome = .rejected
        ∧ (handle_client_task inp t0 ts tel).pool = inp.pool) := by
  have hfull : ∀ p : List Bool, usedCount p = p.length →
      acquire_buffer_pair p = (none, p) := by
    intro p hp
    exact acquire_all_used p fun b hb =>
      ((List.count_eq_length.1 hp) b hb).symm
  refine ⟨?_, hfull, ?_⟩
  · intro max evs
    calc usedCount (runPool max evs) ≤ (runPool max evs).length :=
          List.count_le_length true (runPool max evs)
      _ = max := runPool_length max evs
  · intro inp t0 ts tel hp
    have h := hfull inp.pool hp
    refine ⟨?_, ?_, ?_⟩ <;> simp [handle_client_task, h]

/-- C1 witness: with a single-slot pool, two concurrent attempts leave
at most one slot in use, and a worker arriving at a fully used pool
only closes the client socket. -/
theorem spec_C1_pool_bound_witness :
    usedCount (runPool 1 [.tryAcquire, .tryAcquire]) ≤ 1
    ∧ (handle_client_task ⟨[true], true, true, [], 0⟩ 0 0 initLogState).ops =
        [.closeClient] :=
  ⟨spec_C1_pool_bound.1 1 [.tryAcquire, .tryAcquire],
    (spec_C1_pool_bound.2.2 ⟨[true], true, true, [], 0⟩ 0 0 initLogState (by decide)).1⟩

/-- C5: `release_buffer_pair` is idempotent on pool state: releasing a
slot twice equals releasing it once; for a valid index whose slot is
already released the call is a no-op leaving every `in_use` flag as it
was; and an acquire after a double release sees exactly the pool (and
hence the free/used count) of a single release. -/
theorem spec_C5_release_idempotent (p : List Bool) (i : Int) :
    release_buffer_pair i (release_buffer_pair i p) = release_buffer_pair i p
    ∧ (0 ≤ i → p[i.toNat]? = some false → release_buffer_pair i p = p)
    ∧ acquire_buffer_pair (release_buffer_pair i (release_buffer_pair i p)) =
        acquire_buffer_pair (release_buffer_pair i p)
    ∧ usedCount (release_buffer_pair i (release_buffer_pair i p)) =
        usedCount (release_buffer_pair i p) := by
  have hidem : release_buffer_pair i (release_buffer_pair i p) =
      release_buffer_pair i p := by
    unfold release_buffer_pair
    split
    · rename_i hin
      rw [List.length_set]
      rw [if_pos hin, List.set_set]
    · rfl
  refine ⟨hidem, ?_, by rw [hidem], by rw [hidem]⟩
  intro hnn hfree
  unfold release_buffer_pair
  split
  · exact set_of_getElem? p i.toNat false hfree
  · rfl

/-- C5 witness: double release of slot 0 of a two-slot pool. -/
theorem spec_C5_release_idempotent_witness :
    release_buffer_pair 0 (release_buffer_pair 0 [true, true]) =
      release_buffer_pair 0 [true, true]
    ∧ release_buffer_pair 0 [false, true] = [false, true] :=
  ⟨(spec_C5_release_idempotent [true, true] 0).1,
    (spec_C5_release_idempotent [false, true] 0).2.1 (by decide) (by decide)⟩

/-- C10: for every index outside `0 ≤ index < MAX_CONCURRENT_CLIENTS`
(including the `-1` of a failed acquire), `release_buffer_pair` leaves
the pool — every slot's `in_use` flag — unchanged. -/
theorem spec_C10_release_out_of_range (p : List Bool) (i : Int)
    (h : i < 0 ∨ (p.length : Int) ≤ i) :
    release_buffer_pair i p = p := by
  unfold release_buffer_pair
  rw [if_neg]
  rintro ⟨h1, h2⟩
  rcases h with h | h <;> omega

/-- C10 witness: releasing index `-1` of a fully used pool changes
nothing. -/
theorem spec_C10_release_out_of_range_witness :
    release_buffer_pair (-1) [true, true] = [true, true] :=
  spec_C10_release_out_of_range [true, true] (-1) (Or.inl (by decide))

-- ===== Claim theorems: telemetry running average =====

/-- C3: `log_request` updates the running average and sample count only
when `result` is success (0) and `ttfb_ms > 0`; then, if the sample
count is 0 the average becomes `ttfb_ms`, otherwise
`(avg*4 + ttfb_ms)/5` in integer arithmetic, and the count increments
by one; on timeout/error results (or a zero TTFB) both are unchanged.
From the initial state, one successful exchange with `ttfb = 100`
yields average exactly 100, and a second with `ttfb = 200` yields
exactly 120.  The range hypotheses state that the stored average and
the `uint16_t` TTFB argument are in range, so the `uint32` reduction of
the C arithmetic is the identity. -/
theorem spec_C3_ema_update (s : LogState) (ts ip bi bo ttfb res : Nat)
    (havg : s.avg_ttfb_ms < 65536) (httfb : ttfb < 65536)
    (hcnt : s.ttfb_sample_count + 1 < UINT32_MOD) :
    (res = 0 → 0 < ttfb →
      (log_request ts ip bi bo ttfb res s).avg_ttfb_ms =
        (if s.ttfb_sample_count = 0 then ttfb
          else (s.avg_ttfb_ms * 4 + ttfb) / 5)
      ∧ (log_request ts ip bi bo ttfb res s).ttfb_sample_count =
          s.ttfb_sample_count + 1)
    ∧ (res ≠ 0 ∨ ttfb = 0 →
      (log_request ts ip bi bo ttfb res s).avg_ttfb_ms = s.avg_ttfb_ms
      ∧ (log_request ts ip bi bo ttfb res s).ttfb_sample_count =
          s.ttfb_sample_count)
    ∧ (log_request 1 7 5 6 100 0 initLogState).avg_ttfb_ms = 100
    ∧ (log_request 2 7 5 6 200 0
        (log_request 1 7 5 6 100 0 initLogState)).avg_ttfb_ms = 120
    ∧ (log_request 2 7 5 6 200 0
        (log_request 1 7 5 6 100 0 initLogState)).ttfb_sample_count = 2 := by
  refine ⟨?_, ?_, by decide, by decide, by decide⟩
  · intro hres httfb0
    have hmod : (s.avg_ttfb_ms * 4 + ttfb) % UINT32_MOD =
        s.avg_ttfb_ms * 4 + ttfb := by
      apply Nat.mod_eq_of_lt
      unfold UINT32_MOD
      omega
    have hcnt' : (s.ttfb_sample_count + 1) % UINT32_MOD =
        s.ttfb_sample_count + 1 := Nat.mod_eq_of_lt hcnt
    unfold log_request
    rw [if_pos ⟨hres, httfb0⟩]
    constructor
    · by_cases h0 : s.ttfb_sample_count = 0 <;> simp [h0, hmod]
    · simpa using hcnt'
  · intro hne
    unfold log_request
    rw [if_neg]
    · exact ⟨rfl, rfl⟩
    · rintro ⟨h0, h1⟩
      rcases hne with h | h
      · exact h h0
      · omega

/-- C3 witness: the initial telemetry state satisfies the range
hypotheses, and the concrete 100-then-200 sequence follows. -/
theorem spec_C3_ema_update_witness :
    (log_request 1 7 5 6 100 0 initLogState).avg_ttfb_ms = 100
    ∧ (log_request 2 7 5 6 200 0
        (log_request 1 7 5 6 100 0 initLogState)).avg_ttfb_ms = 120 :=
  ⟨(spec_C3_ema_update initLogState 1 7 5 6 100 0 (by decide) (by decide)
      (by decide)).2.2.1,
    (spec_C3_ema_update initLogState 1 7 5 6 100 0 (by decide) (by decide)
      (by decide)).2.2.2.1⟩

-- ===== Helper lemmas: telemetry ring =====

lemma log_request_request_log (ts ip bi bo tt r : Nat) (s : LogState) :
    (log_request ts ip bi bo tt r s).request_log =
      s.request_log.set s.request_log_index ⟨ts, ip, bi, bo, tt, r, true⟩ := by
  unfold log_request
  split <;> rfl

lemma log_request_index (ts ip bi bo tt r : Nat) (s : LogState) :
    (log_request ts ip bi bo tt r s).request_log_index =
      (s.request_log_index + 1) % REQUEST_LOG_SIZE := by
  unfold log_request
  split <;> rfl

lemma logMany_log_length (s : LogState) (ws : List LogCall) :
    (logMany s ws).request_log.length = s.request_log.length := by
  induction ws generalizing s with
  | nil => rfl
  | cons w rest ih =>
    show (logMany (applyLog s w) rest).request_log.length = _
    rw [ih]
    show (log_request ..).request_log.length = _
    rw [log_request_request_log, List.length_set]

lemma logMany_index (s : LogState) (ws : List LogCall)
    (h : s.request_log_index < REQUEST_LOG_SIZE) :
    (logMany s ws).request_log_index =
      (s.request_log_index + ws.length) % REQUEST_LOG_SIZE := by
  induction ws generalizing s with
  | nil => exact (Nat.mod_eq_of_lt h).symm
  | cons w rest ih =>
    show (logMany (applyLog s w) rest).request_log_index = _
    have h1 : (applyLog s w).request_log_index =
        (s.request_log_index + 1) % REQUEST_LOG_SIZE := log_request_index ..
    rw [ih (applyLog s w) (by rw [h1]; exact Nat.mod_lt _ (by decide)), h1,
      Nat.mod_add_mod]
    simp only [List.length_cons]
    unfold REQUEST_LOG_SIZE
    omega

lemma ring_read (s : LogState) (hlen : s.request_log.length = REQUEST_LOG_SIZE)
    (hidx : s.request_log_index < REQUEST_LOG_SIZE) (ws : List LogCall) :
    ∀ i, i < ws.length → i < REQUEST_LOG_SIZE →
      (logMany s ws).request_log[readIdx (logMany s ws).request_log_index i]? =
        (ws[ws.length - 1 - i]?).map entryOf := by
  induction ws using List.reverseRecOn with
  | nil => intro i hi _; simp at hi
  | append_singleton ws w ih =>
    intro i hi hK
    have hsplit : logMany s (ws ++ [w]) = applyLog (logMany s ws) w := by
      unfold logMany
      rw [List.foldl_append]
      rfl
    have hj : (logMany s ws).request_log_index =
        (s.request_log_index + ws.length) % REQUEST_LOG_SIZE :=
      logMany_index s ws hidx
    have hjlt : (logMany s ws).request_log_index < REQUEST_LOG_SIZE := by
      rw [hj]; exact Nat.mod_lt _ (by decide)
    have hlen' : (logMany s ws).request_log.length = REQUEST_LOG_SIZE := by
      rw [logMany_log_length, hlen]
    have hlog : (logMany s (ws ++ [w])).request_log =
        (logMany s ws).request_log.set (logMany s ws).request_log_index
          (entryOf w) := by
      rw [hsplit]
      exact log_request_request_log ..
    have hidx2 : (logMany s (ws ++ [w])).request_log_index =
        ((logMany s ws).request_log_index + 1) % REQUEST_LOG_SIZE := by
      rw [hsplit]
      exact log_request_index ..
    set j := (logMany s ws).request_log_index with hjdef
    rcases Nat.eq_zero_or_pos i with rfl | hipos
    · -- most recent entry: the slot just written
      have hread : readIdx (logMany s (ws ++ [w])).request_log_index 0 = j := by
        rw [hidx2]
        unfold readIdx REQUEST_LOG_SIZE
        unfold REQUEST_LOG_SIZE at hjlt
        omega
      rw [hread, hlog, List.getElem?_set_self (by rw [hlen']; exact hjlt)]
      have : (ws ++ [w]).length - 1 - 0 = ws.length := by simp
      rw [this, List.getElem?_concat_length]
      rfl
    · -- older entries: untouched slots, covered by the induction hypothesis
      have hiK : i < REQUEST_LOG_SIZE := hK
      have hiws : i - 1 < ws.length := by
        simp only [List.length_append, List.length_cons, List.length_nil] at hi
        omega
      have hread : readIdx (logMany s (ws ++ [w])).request_log_index i =
          readIdx j (i - 1) := by
        rw [hidx2]
        unfold readIdx REQUEST_LOG_SIZE
        unfold REQUEST_LOG_SIZE at hiK
        omega
      have hne : readIdx j (i - 1) ≠ j := by
        unfold readIdx REQUEST_LOG_SIZE
        unfold REQUEST_LOG_SIZE at hjlt hiK
        omega
      rw [hread, hlog, List.getElem?_set_ne (Ne.symm hne),
        ih (i - 1) hiws (by omega)]
      have harr : (ws ++ [w]).length - 1 - i = ws.length - 1 - (i - 1) := by
        simp only [List.length_append, List.length_cons, List.length_nil]
        omega
      have hlt : ws.length - 1 - (i - 1) < ws.length := by omega
      rw [harr, List.getElem?_append]
      rw [if_pos hlt]

/-- Concrete sequence of `11 > REQUEST_LOG_SIZE` completed exchanges. -/
def wsEleven : List LogCall :=
  (List.range 11).map (fun n => ⟨n, n, n, n, n, n⟩)

/-- C4: after `M > REQUEST_LOG_SIZE` completed `log_request` calls the
ring holds exactly the `K = REQUEST_LOG_SIZE` most recent entries: a
reader iterating `(request_log_index - 1 - i + K) % K` for
`i = 0..K-1` sees, at step `i`, exactly the `(M-1-i)`-th call's entry —
most-recent first — and the `K` read positions are pairwise distinct,
so no entry is duplicated or skipped and the oldest was overwritten
first. -/
theorem spec_C4_ring_recency (ws : List LogCall)
    (hM : REQUEST_LOG_SIZE < ws.length) :
    (∀ i, i < REQUEST_LOG_SIZE →
      (logMany initLogState ws).request_log[
          readIdx (logMany initLogState ws).request_log_index i]? =
        (ws[ws.length - 1 - i]?).map entryOf)
    ∧ (∀ i i', i < REQUEST_LOG_SIZE → i' < REQUEST_LOG_SIZE →
        readIdx (logMany initLogState ws).request_log_index i =
          readIdx (logMany initLogState ws).request_log_index i' → i = i')
    ∧ (logMany initLogState ws).request_log.length = REQUEST_LOG_SIZE := by
  refine ⟨?_, ?_, ?_⟩
  · intro i hiK
    exact ring_read initLogState (by decide) (by decide) ws i
      (Nat.lt_trans hiK hM) hiK
  · intro i i' hi hi'
    unfold readIdx REQUEST_LOG_SIZE
    unfold REQUEST_LOG_SIZE at hi hi'
    omega
  · rw [logMany_log_length]
    rfl

/-- C4 witness: after 11 calls the reader's step 0 yields the 11th
call's entry and step 9 the 2nd call's entry. -/
theorem spec_C4_ring_recency_witness :
    (logMany initLogState wsEleven).request_log[
        readIdx (logMany initLogState wsEleven).request_log_index 0]? =
      (wsEleven[10]?).map entryOf
    ∧ (logMany initLogState wsEleven).request_log[
        readIdx (logMany initLogState wsEleven).request_log_index 9]? =
      (wsEleven[1]?).map entryOf :=
  ⟨(spec_C4_ring_recency wsEleven (by decide)).1 0 (by decide),
    (spec_C4_ring_recency wsEleven (by decide)).1 9 (by decide)⟩

-- ===== Helper lemmas: write-all loop =====

lemma take_append_drop_len {α : Type} (l : List α) (k : Nat) :
    l.take k ++ l.drop (l.take k).length = l := by
  rcases le_or_lt k l.length with h | h
  · rw [List.length_take, Nat.min_eq_left h, List.take_append_drop]
  · rw [List.take_of_length_le (Nat.le_of_lt h), List.drop_length,
      List.append_nil]

lemma send_all_complete (chunk : List Nat) (orc : List SendOutcome) :
    ∀ total, (send_all chunk total orc).1 = true →
      (send_all chunk total orc).2 = chunk.drop total := by
  induction orc with
  | nil =>
    intro total h
    by_cases hle : chunk.length ≤ total
    · simp only [send_all, if_pos hle]
      exact ((List.drop_eq_nil_iff).2 hle).symm
    · simp only [send_all, if_neg hle] at h
      exact absurd h (by decide)
  | cons o rest ih =>
    intro total h
    cases o with
    | accepted k =>
      by_cases hle : chunk.length ≤ total
      · simp only [send_all, if_pos hle]
        exact ((List.drop_eq_nil_iff).2 hle).symm
      · simp only [send_all, if_neg hle] at h ⊢
        rw [ih _ h, ← List.drop_drop, take_append_drop_len]
    | wouldBlock w =>
      by_cases hle : chunk.length ≤ total
      · simp only [send_all, if_pos hle]
        exact ((List.drop_eq_nil_iff).2 hle).symm
      · cases w with
        | true =>
          simp only [send_all, if_neg hle, if_true] at h ⊢
          exact ih _ h
        | false =>
          simp [send_all, if_neg hle] at h
    | sendError =>
      by_cases hle : chunk.length ≤ total
      · simp only [send_all, if_pos hle]
        exact ((List.drop_eq_nil_iff).2 hle).symm
      · simp [send_all, if_neg hle] at h

lemma forwardDirection_complete (ps : List (List Nat × List SendOutcome)) :
    (forwardDirection ps).1 = true →
      (forwardDirection ps).2 = (ps.map Prod.fst).flatten := by
  induction ps with
  | nil => intro _; rfl
  | cons pr rest ih =>
    obtain ⟨chunk, orc⟩ := pr
    intro h
    by_cases hc : (send_all chunk 0 orc).1 = true
    · simp only [forwardDirection, hc, if_true] at h ⊢
      rw [ih h, send_all_complete chunk orc 0 hc]
      simp
    · simp [forwardDirection, hc] at h

-- ===== Claim theorem: passthrough byte-stream preservation =====

/-- C2: in passthrough mode each direction is relayed byte-for-byte in
arrival order: a chunk whose write-all loop completes was sent exactly
and in order (`send_all ... = (true, out) → out = chunk`), so when
every chunk's write-all loop completes, the byte stream delivered to
the opposite socket is the concatenation of the received chunks; a
would-block whose bounded 5 s writability wait times out aborts the
connection, delivering nothing further of that chunk. -/
theorem spec_C2_passthrough_stream :
    (∀ ps : List (List Nat × List SendOutcome),
      (∀ pr ∈ ps, pr.1.length ≤ PROXY_BUFFER_SIZE) →
      (forwardDirection ps).1 = true →
      (forwardDirection ps).2 = (ps.map Prod.fst).flatten)
    ∧ (∀ (chunk : List Nat) (orc : List SendOutcome) (out : List Nat),
        send_all chunk 0 orc = (true, out) → out = chunk)
    ∧ (∀ (chunk : List Nat) (rest : List SendOutcome),
        0 < chunk.length →
        send_all chunk 0 (.wouldBlock false :: rest) = (false, [])) := by
  refine ⟨fun ps _ h => forwardDirection_complete ps h, ?_, ?_⟩
  · intro chunk orc out h
    have h1 : (send_all chunk 0 orc).1 = true := by rw [h]
    have h2 := send_all_complete chunk orc 0 h1
    rw [h] at h2
    simpa using h2
  · intro chunk rest hpos
    have hne : ¬ chunk.length ≤ 0 := by omega
    simp [send_all, hne]

/-- Two chunks with partial sends and a recoverable would-block. -/
def psTwoChunks : List (List Nat × List SendOutcome) :=
  [([1, 2], [.accepted 1, .accepted 5]), ([3], [.wouldBlock true, .accepted 1])]

/-- C2 witness: the two-chunk trace is delivered exactly, and a
writability timeout on a nonempty chunk aborts at once. -/
theorem spec_C2_passthrough_stream_witness :
    (forwardDirection psTwoChunks).2 = (psTwoChunks.map Prod.fst).flatten
    ∧ send_all [9] 0 [.wouldBlock false] = (false, []) :=
  ⟨spec_C2_passthrough_stream.1 psTwoChunks (by decide) (by decide),
    spec_C2_passthrough_stream.2.2 [9] [] (by decide)⟩

-- ===== Helper lemmas: forwarding-loop exits =====

lemma clientBranch_recvError (now : Nat) (r : RecvOutcome) (s s' : ConnState)
    (h : clientBranch now r s = (s', some .clientRecvError)) :
    s'.request_result = 2 := by
  cases r with
  | ret chunk orc =>
    simp only [clientBranch] at h
    split at h
    · split at h <;> simp at h
    · simp at h
  | recvError =>
    simp only [clientBranch, Prod.mk.injEq, Option.some.injEq] at h
    rw [← h.1]

lemma clientBranch_exits (now : Nat) (r : RecvOutcome) (s s' : ConnState)
    (e : ExitKind) (h : clientBranch now r s = (s', some e)) :
    e = .clientClosed ∨ e = .clientRecvError ∨ e = .sendAbortToBackend := by
  cases r with
  | ret chunk orc =>
    simp only [clientBranch] at h
    split at h
    · split at h
      · simp at h
      · simp only [Prod.mk.injEq, Option.some.injEq] at h
        right; right; exact h.2.symm
    · simp only [Prod.mk.injEq, Option.some.injEq] at h
      left; exact h.2.symm
  | recvError =>
    simp only [clientBranch, Prod.mk.injEq, Option.some.injEq] at h
    right; left; exact h.2.symm

lemma clientBranch_abort_result (now : Nat) (r : RecvOutcome) (s s' : ConnState)
    (h : clientBranch now r s = (s', some .sendAbortToBackend)) :
    s'.request_result = s.request_result ∨ s'.request_result = 0 := by
  cases r with
  | ret chunk orc =>
    simp only [clientBranch] at h
    split at h
    · split at h
      · simp at h
      · simp only [Prod.mk.injEq, Option.some.injEq] at h
        rw [← h.1]
        split
        · right; split <;> rfl
        · left; split <;> rfl
    · simp at h
  | recvError => simp [clientBranch] at h

lemma clientBranch_cont_result (now : Nat) (r : RecvOutcome) (s s' : ConnState)
    (h : clientBranch now r s = (s', none)) :
    s'.request_result = s.request_result ∨ s'.request_result = 0 := by
  cases r with
  | ret chunk orc =>
    simp only [clientBranch] at h
    split at h
    · split at h
      · simp only [Prod.mk.injEq] at h
        rw [← h.1]
        split
        · right; split <;> rfl
        · left; split <;> rfl
      · simp at h
    · simp at h
  | recvError => simp [clientBranch] at h

lemma backendBranch_recvError (now : Nat) (r : RecvOutcome) (s s' : ConnState)
    (h : backendBranch now r s = (s', some .backendRecvError)) :
    s'.request_result = 2 := by
  cases r with
  | ret chunk orc =>
    simp only [backendBranch] at h
    split at h
    · split at h <;> simp at h
    · simp at h
  | recvError =>
    simp only [backendBranch, Prod.mk.injEq, Option.some.injEq] at h
    rw [← h.1]

lemma backendBranch_exits (now : Nat) (r : RecvOutcome) (s s' : ConnState)
    (e : ExitKind) (h : backendBranch now r s = (s', some e)) :
    e = .backendClosed ∨ e = .backendRecvError ∨ e = .sendAbortToClient := by
  cases r with
  | ret chunk orc =>
    simp only [backendBranch] at h
    split at h
    · split at h
      · simp at h
      · simp only [Prod.mk.injEq, Option.some.injEq] at h
        right; right; exact h.2.symm
    · simp only [Prod.mk.injEq, Option.some.injEq] at h
      left; exact h.2.symm
  | recvError =>
    simp only [backendBranch, Prod.mk.injEq, Option.some.injEq] at h
    right; left; exact h.2.symm

lemma backendBranch_abort_result (now : Nat) (r : RecvOutcome) (s s' : ConnState)
    (h : backendBranch now r s = (s', some .sendAbortToClient)) :
    s'.request_result = s.request_result := by
  cases r with
  | ret chunk orc =>
    simp only [backendBranch] at h
    split at h
    · split at h
      · simp at h
      · simp only [Prod.mk.injEq, Option.some.injEq] at h
        rw [← h.1]
        split <;> rfl
    · simp at h
  | recvError => simp [backendBranch] at h

lemma loopStep_recvError (it : IterEvent) (s s' : ConnState) (e : ExitKind)
    (h : loopStep it s = (s', some e))
    (he : e = .clientRecvError ∨ e = .backendRecvError) :
    s'.request_result = 2 := by
  rcases it with ⟨now, sel⟩
  cases sel with
  | selErr =>
    simp only [loopStep, Prod.mk.injEq, Option.some.injEq] at h
    rcases he with rfl | rfl <;> simp at h
  | ready copt bopt =>
    cases copt with
    | none =>
      cases bopt with
      | none =>
        simp only [loopStep] at h
        split at h
        · simp only [Prod.mk.injEq, Option.some.injEq] at h
          rcases he with rfl | rfl <;> simp at h
        · simp at h
      | some rb =>
        rcases hbb : backendBranch now rb s with ⟨s1, oe⟩
        simp only [loopStep, hbb] at h
        cases oe with
        | none => simp at h
        | some e1 =>
          simp only [Prod.mk.injEq, Option.some.injEq] at h
          obtain ⟨rfl, rfl⟩ := h
          rcases backendBranch_exits now rb s _ _ hbb with rfl | rfl | rfl
          · rcases he with h' | h' <;> simp at h'
          · exact backendBranch_recvError now rb s _ hbb
          · rcases he with h' | h' <;> simp at h'
    | some rc =>
      rcases hcb : clientBranch now rc s with ⟨s1, oe⟩
      simp only [loopStep, hcb] at h
      cases oe with
      | some e1 =>
        simp only [Prod.mk.injEq, Option.some.injEq] at h
        obtain ⟨rfl, rfl⟩ := h
        rcases clientBranch_exits now rc s _ _ hcb with rfl | rfl | rfl
        · rcases he with h' | h' <;> simp at h'
        · exact clientBranch_recvError now rc s _ hcb
        · rcases he with h' | h' <;> simp at h'
      | none =>
        cases bopt with
        | none => simp at h
        | some rb =>
          simp only at h
          rcases backendBranch_exits now rb s1 _ _ h with rfl | rfl | rfl
          · rcases he with h' | h' <;> simp at h'
          · exact backendBranch_recvError now rb s1 _ h
          · rcases he with h' | h' <;> simp at h'

lemma loopStep_idleTimeout (it : IterEvent) (s s' : ConnState)
    (h : loopStep it s = (s', some .idleTimeout)) :
    s' = { s with request_result := 1 }
    ∧ pdMS_TO_TICKS PROXY_TIMEOUT_MS < it.now - s.last_activity := by
  rcases it with ⟨now, sel⟩
  cases sel with
  | selErr => simp [loopStep] at h
  | ready copt bopt =>
    cases copt with
    | none =>
      cases bopt with
      | none =>
        simp only [loopStep] at h
        split at h
        · simp only [Prod.mk.injEq, Option.some.injEq, and_true] at h
          exact ⟨h.symm, by assumption⟩
        · simp at h
      | some rb =>
        rcases hbb : backendBranch now rb s with ⟨s1, oe⟩
        simp only [loopStep, hbb] at h
        cases oe with
        | none => simp at h
        | some e1 =>
          simp only [Prod.mk.injEq, Option.some.injEq] at h
          obtain ⟨rfl, rfl⟩ := h
          rcases backendBranch_exits now rb s _ _ hbb with h' | h' | h' <;>
            simp at h'
    | some rc =>
      rcases hcb : clientBranch now rc s with ⟨s1, oe⟩
      simp only [loopStep, hcb] at h
      cases oe with
      | some e1 =>
        simp only [Prod.mk.injEq, Option.some.injEq] at h
        obtain ⟨rfl, rfl⟩ := h
        rcases clientBranch_exits now rc s _ _ hcb with h' | h' | h' <;>
          simp at h'
      | none =>
        cases bopt with
        | none => simp at h
        | some rb =>
          simp only at h
          rcases backendBranch_exits now rb s1 _ _ h with h' | h' | h' <;>
            simp at h'

lemma loopStep_abort (it : IterEvent) (s s' : ConnState) (e : ExitKind)
    (h : loopStep it s = (s', some e))
    (he : e = .sendAbortToBackend ∨ e = .sendAbortToClient) :
    s'.request_result = s.request_result ∨ s'.request_result = 0 := by
  rcases it with ⟨now, sel⟩
  cases sel with
  | selErr =>
    simp only [loopStep, Prod.mk.injEq, Option.some.injEq] at h
    rcases he with rfl | rfl <;> simp at h
  | ready copt bopt =>
    cases copt with
    | none =>
      cases bopt with
      | none =>
        simp only [loopStep] at h
        split at h
        · simp only [Prod.mk.injEq, Option.some.injEq] at h
          rcases he with rfl | rfl <;> simp at h
        · simp at h
      | some rb =>
        rcases hbb : backendBranch now rb s with ⟨s1, oe⟩
        simp only [loopStep, hbb] at h
        cases oe with
        | none => simp at h
        | some e1 =>
          simp only [Prod.mk.injEq, Option.some.injEq] at h
          obtain ⟨rfl, rfl⟩ := h
          rcases backendBranch_exits now rb s _ _ hbb with rfl | rfl | rfl
          · rcases he with h' | h' <;> simp at h'
          · rcases he with h' | h' <;> simp at h'
          · exact Or.inl (backendBranch_abort_result now rb s _ hbb)
    | some rc =>
      rcases hcb : clientBranch now rc s with ⟨s1, oe⟩
      simp only [loopStep, hcb] at h
      cases oe with
      | some e1 =>
        simp only [Prod.mk.injEq, Option.some.injEq] at h
        obtain ⟨rfl, rfl⟩ := h
        rcases clientBranch_exits now rc s _ _ hcb with rfl | rfl | rfl
        · rcases he with h' | h' <;> simp at h'
        · rcases he with h' | h' <;> simp at h'
        · exact clientBranch_abort_result now rc s _ hcb
      | none =>
        cases bopt with
        | none => simp at h
        | some rb =>
          simp only at h
          rcases backendBranch_exits now rb s1 _ _ h with rfl | rfl | rfl
          · rcases he with h' | h' <;> simp at h'
          · rcases he with h' | h' <;> simp at h'
          · have h1 := backendBranch_abort_result now rb s1 _ h
            have h2 := clientBranch_cont_result now rc s s1 hcb
            rw [h1]
            exact h2

lemma runLoop_recvError (tr : List IterEvent) :
    ∀ (s0 sf : ConnState) (e : ExitKind), runLoop s0 tr = (sf, some e) →
      (e = .clientRecvError ∨ e = .backendRecvError) →
      sf.request_result = 2 := by
  induction tr with
  | nil => intro s0 sf e h he; simp [runLoop] at h
  | cons it rest ih =>
    intro s0 sf e h he
    rcases hls : loopStep it s0 with ⟨s1, oe⟩
    cases oe with
    | some e1 =>
      simp only [runLoop, hls, Prod.mk.injEq, Option.some.injEq] at h
      obtain ⟨rfl, rfl⟩ := h
      exact loopStep_recvError it s0 _ _ hls he
    | none =>
      simp only [runLoop, hls] at h
      exact ih s1 sf e h he

lemma runLoop_idleTimeout (tr : List IterEvent) :
    ∀ (s0 sf : ConnState), runLoop s0 tr = (sf, some .idleTimeout) →
      sf.request_result = 1 := by
  induction tr with
  | nil => intro s0 sf h; simp [runLoop] at h
  | cons it rest ih =>
    intro s0 sf h
    rcases hls : loopStep it s0 with ⟨s1, oe⟩
    cases oe with
    | some e1 =>
      simp only [runLoop, hls, Prod.mk.injEq, Option.some.injEq] at h
      obtain ⟨rfl, rfl⟩ := h
      rw [(loopStep_idleTimeout it s0 _ hls).1]
    | none =>
      simp only [runLoop, hls] at h
      exact ih s1 sf h

lemma release_after_acquire (p : List Bool) (i : Nat) (hi : i < p.length) :
    release_buffer_pair (i : Int) (p.set i true) = p.set i false := by
  unfold release_buffer_pair
  rw [if_pos]
  · rw [Int.toNat_natCast, List.set_set]
  · refine ⟨Int.natCast_nonneg i, ?_⟩
    rw [List.length_set]
    exact_mod_cast hi

-- ===== Claim theorems: error handling and cleanup =====

/-- A connection whose first client chunk forwards, then whose second
`send` toward the backend fails with an unrecoverable error. -/
def cexSendFailInput : TaskInput :=
  ⟨[false], true, true,
    [⟨100, .ready (some (.ret [42] [.accepted 2048])) none⟩,
     ⟨200, .ready (some (.ret [43] [.sendError])) none⟩], 9⟩

/-- C6 counterexample: a write on the backend leg fails with an
unrecoverable I/O error (the worker jumps to `cleanup:`), yet the
telemetry entry logged carries `result = 0` (success) — the send-error
paths never set `request_result = 2` — so no entry with
`result = error` exists, contradicting the claim. -/
theorem spec_C6_counterexample :
    (handle_client_task cexSendFailInput 0 7 initLogState).outcome =
      .loopExited .sendAbortToBackend
    ∧ (handle_client_task cexSendFailInput 0 7 initLogState
        ).telemetry.request_log[0]? = some ⟨7, 9, 1, 0, 0, 0, true⟩
    ∧ ∀ en ∈ (handle_client_task cexSendFailInput 0 7 initLogState
        ).telemetry.request_log, en.result ≠ 2 := by
  decide

/-- C6 amended: when a `recv` on either leg fails with an unrecoverable
I/O error, the connection is aborted with `request_result = 2` (error),
and — provided at least one byte was transferred in the current
exchange — `cleanup:` logs a telemetry entry with `result = error`
carrying the byte counts transferred so far; when nothing was
transferred no entry is logged; a failed `send` or a write-readiness
timeout aborts the connection without recording an error result (the
result code stays what it was, or 0 after an exchange rollover). -/
theorem spec_C6_amended_io_error :
    (∀ (tr : List IterEvent) (s0 sf : ConnState) (e : ExitKind) (ts : Nat),
      runLoop s0 tr = (sf, some e) →
      (e = .clientRecvError ∨ e = .backendRecvError) →
      sf.request_result = 2
      ∧ ((0 < sf.request_bytes_in ∨ 0 < sf.request_bytes_out) →
          cleanup ts sf =
            log_request ts sf.source_ip sf.request_bytes_in
              sf.request_bytes_out sf.current_ttfb_ms 2 sf.telemetry))
    ∧ (∀ (ts : Nat) (sf : ConnState),
        sf.request_bytes_in = 0 → sf.request_bytes_out = 0 →
        cleanup ts sf = sf.telemetry)
    ∧ (∀ (it : IterEvent) (s s' : ConnState) (e : ExitKind),
        loopStep it s = (s', some e) →
        (e = .sendAbortToBackend ∨ e = .sendAbortToClient) →
        (s'.request_result = s.request_result ∨ s'.request_result = 0)) := by
  refine ⟨?_, ?_, fun it s s' e h he => loopStep_abort it s s' e h he⟩
  · intro tr s0 sf e ts h he
    have h2 := runLoop_recvError tr s0 sf e h he
    refine ⟨h2, fun hb => ?_⟩
    unfold cleanup
    rw [if_pos hb, h2]
  · intro ts sf h1 h2
    unfold cleanup
    rw [if_neg]
    simp [h1, h2]

/-- A connection that forwards one chunk and then sees a client-side
`recv` error. -/
def trRecvErr : List IterEvent :=
  [⟨1, .ready (some (.ret [5] [.accepted 1])) none⟩,
   ⟨2, .ready (some .recvError) none⟩]

/-- C6 amended witness: on the concrete recv-error trace the final
result code is `2`. -/
theorem spec_C6_amended_io_error_witness :
    (runLoop (initConnState 3 0 initLogState) trRecvErr).1.request_result = 2 :=
  (spec_C6_amended_io_error.1 trRecvErr (initConnState 3 0 initLogState)
    (runLoop (initConnState 3 0 initLogState) trRecvErr).1 .clientRecvError 0
    (by decide) (Or.inl rfl)).1

/-- C7: every exit of a worker that acquired buffer slot `i` — backend
connect failure, socket-creation failure, and every forwarding-loop
exit (send/recv errors, write-readiness timeout, idle timeout, orderly
peer close, `select` failure) — leaves slot `i` released
(`in_use = false`, so a subsequent attempt's acquire succeeds), closes
the client socket, and closes the backend socket whenever its creation
succeeded. -/
theorem spec_C7_cleanup_on_exit (inp : TaskInput) (t0 ts : Nat)
    (tel : LogState) (i : Nat)
    (hacq : (acquire_buffer_pair inp.pool).1 = some i)
    (hdone : (handle_client_task inp t0 ts tel).outcome ≠ .stillRunning) :
    (handle_client_task inp t0 ts tel).pool[i]? = some false
    ∧ .closeClient ∈ (handle_client_task inp t0 ts tel).ops
    ∧ (inp.socketCreateOk = true →
        .closeBackend ∈ (handle_client_task inp t0 ts tel).ops)
    ∧ ((acquire_buffer_pair (handle_client_task inp t0 ts tel).pool).1).isSome
    := by
  rcases hq : acquire_buffer_pair inp.pool with ⟨oi, p⟩
  rw [hq] at hacq
  simp only at hacq
  subst hacq
  obtain ⟨hset, hfree⟩ := acquire_some inp.pool i p hq
  have hilt : i < inp.pool.length := (List.getElem?_eq_some.1 hfree).1
  subst hset
  have hrel : release_buffer_pair (i : Int) (inp.pool.set i true) =
      inp.pool.set i false := release_after_acquire inp.pool i hilt
  have hslot : (inp.pool.set i false)[i]? = some false :=
    List.getElem?_set_self hilt
  have hsome : (acquire_buffer_pair (inp.pool.set i false)).1.isSome :=
    acquire_isSome_of_free (inp.pool.set i false) i hslot
  by_cases hsc : inp.socketCreateOk = false
  · have hres : handle_client_task inp t0 ts tel =
        ⟨release_buffer_pair i (inp.pool.set i true),
          [.createBackendSocket, .closeClient], .socketCreateFailed, tel⟩ := by
      simp [handle_client_task, hq, hsc]
    rw [hres]
    refine ⟨by rw [hrel]; exact hslot, by simp, ?_, by rw [hrel]; exact hsome⟩
    intro hsc'
    rw [hsc'] at hsc
    simp at hsc
  · have hsc' : inp.socketCreateOk = true := by
      revert hsc; cases inp.socketCreateOk <;> simp
    by_cases hco : inp.connectOk = false
    · have hres : handle_client_task inp t0 ts tel =
          ⟨release_buffer_pair i (inp.pool.set i true),
            [.createBackendSocket, .connectBackend, .closeBackend,
              .closeClient], .connectFailed, tel⟩ := by
        simp [handle_client_task, hq, hsc', hco]
      rw [hres]
      exact ⟨by rw [hrel]; exact hslot, by simp, fun _ => by simp,
        by rw [hrel]; exact hsome⟩
    · have hco' : inp.connectOk = true := by
        revert hco; cases inp.connectOk <;> simp
      rcases hrl : runLoop (initConnState inp.source_ip t0 tel) inp.trace
        with ⟨sf, oe⟩
      cases oe with
      | none =>
        exfalso
        apply hdone
        simp [handle_client_task, hq, hsc', hco', hrl]
      | some e =>
        have hres : handle_client_task inp t0 ts tel =
            ⟨release_buffer_pair i (inp.pool.set i true),
              [.createBackendSocket, .connectBackend, .closeBackend,
                .closeClient], .loopExited e, cleanup ts sf⟩ := by
          simp [handle_client_task, hq, hsc', hco', hrl]
        rw [hres]
        exact ⟨by rw [hrel]; exact hslot, by simp, fun _ => by simp,
          by rw [hrel]; exact hsome⟩

/-- A worker whose client closes immediately (orderly close). -/
def inpOrderlyClose : TaskInput :=
  ⟨[false], true, true, [⟨1, .ready (some (.ret [] [])) none⟩], 4⟩

/-- C7 witness: on an orderly client close, the slot is back to free,
both close operations happened, and a new acquire succeeds. -/
theorem spec_C7_cleanup_on_exit_witness :
    (handle_client_task inpOrderlyClose 0 0 initLogState).pool[0]? = some false
    ∧ .closeBackend ∈ (handle_client_task inpOrderlyClose 0 0 initLogState).ops
    :=
  ⟨(spec_C7_cleanup_on_exit inpOrderlyClose 0 0 initLogState 0 (by decide)
      (by decide)).1,
    (spec_C7_cleanup_on_exit inpOrderlyClose 0 0 initLogState 0 (by decide)
      (by decide)).2.2.1 rfl⟩

/-- A fresh connection over which nothing happens for one polling slice
past the timeout: 6001 ticks elapsed against
`pdMS_TO_TICKS PROXY_TIMEOUT_MS = 6000`. -/
def cexTimeoutInput : TaskInput :=
  ⟨[false], true, true, [⟨6001, .ready none none⟩], 7⟩

/-- C8 counterexample: the idle timeout fires and the connection is
terminated, but because no bytes were transferred `cleanup:` logs
nothing — every ring entry is still invalid — contradicting the claim
that the exchange is logged with `result = timeout`. -/
theorem spec_C8_counterexample :
    (handle_client_task cexTimeoutInput 0 5 initLogState).outcome =
      .loopExited .idleTimeout
    ∧ ∀ en ∈ (handle_client_task cexTimeoutInput 0 5 initLogState
        ).telemetry.request_log, en.valid = false := by
  decide

/-- C8 amended: if no readiness event occurs during a polling slice and
the ticks elapsed since the last successful recv/send exceed
`pdMS_TO_TICKS (PROXY_TIMEOUT_MS)`, the loop terminates the connection
with `request_result = 1` (timeout); every run that exits by idle
timeout ends with result 1 and — provided at least one byte was
transferred in the current exchange — the exchange is logged with
`result = timeout` and the byte counts. -/
theorem spec_C8_amended_idle_timeout :
    (∀ (it : IterEvent) (s : ConnState),
      it.sel = .ready none none →
      pdMS_TO_TICKS PROXY_TIMEOUT_MS < it.now - s.last_activity →
      loopStep it s = ({ s with request_result := 1 }, some .idleTimeout))
    ∧ (∀ (tr : List IterEvent) (s0 sf : ConnState) (ts : Nat),
        runLoop s0 tr = (sf, some .idleTimeout) →
        sf.request_result = 1
        ∧ ((0 < sf.request_bytes_in ∨ 0 < sf.request_bytes_out) →
            cleanup ts sf =
              log_request ts sf.source_ip sf.request_bytes_in
                sf.request_bytes_out sf.current_ttfb_ms 1 sf.telemetry)) := by
  constructor
  · intro it s hsel hto
    rcases it with ⟨now, sel⟩
    obtain rfl : sel = .ready none none := hsel
    simp only [loopStep]
    rw [if_pos hto]
  · intro tr s0 sf ts h
    have h1 := runLoop_idleTimeout tr s0 sf h
    refine ⟨h1, fun hb => ?_⟩
    unfold cleanup
    rw [if_pos hb, h1]

/-- C8 amended witness: the concrete one-slice timeout trace exits with
result 1. -/
theorem spec_C8_amended_idle_timeout_witness :
    loopStep ⟨6001, .ready none none⟩ (initConnState 7 0 initLogState) =
      ({ initConnState 7 0 initLogState with request_result := 1 },
        some .idleTimeout) :=
  spec_C8_amended_idle_timeout.1 ⟨6001, .ready none none⟩
    (initConnState 7 0 initLogState) rfl (by decide)

-- ===== Claim theorem: keep-alive timeout policy (spec-modelled) =====

/-- C9 (spec-modelled; the reframing variant is absent from `src/`):
with the keep-alive flag set and base idle timeout `T`, the effective
timeout is `3*T`: the polling loop does not terminate at any slice
whose elapsed idle time is at most `3*T`, and it terminates at the
first slice past `3*T`, which occurs no later than `3*T + slice`; once
`Connection: close` is observed the keep-alive flag clears and the
effective timeout reverts to the base `T`. -/
theorem spec_C9_keepalive_timeout (T slice : Nat) (hs : 0 < slice) :
    (∀ k : Nat, k * slice ≤ 3 * T →
      keepAliveLoopTerminatesAt true T slice k = false)
    ∧ keepAliveLoopTerminatesAt true T slice (3 * T / slice + 1) = true
    ∧ 3 * T < (3 * T / slice + 1) * slice
    ∧ (3 * T / slice + 1) * slice ≤ 3 * T + slice
    ∧ effectiveIdleTimeout (observeConnectionClose true) T = T := by
  have hdm := Nat.div_add_mod (3 * T) slice
  have hml : 3 * T % slice < slice := Nat.mod_lt _ hs
  have hmul : (3 * T / slice + 1) * slice = slice * (3 * T / slice) + slice := by
    ring
  have hlt : 3 * T < (3 * T / slice + 1) * slice := by omega
  have hle : (3 * T / slice + 1) * slice ≤ 3 * T + slice := by omega
  refine ⟨?_, ?_, hlt, hle, rfl⟩
  · intro k hk
    simp only [keepAliveLoopTerminatesAt, effectiveIdleTimeout, if_pos rfl]
    simp only [decide_eq_false_iff_not, not_lt]
    exact hk
  · simp only [keepAliveLoopTerminatesAt, effectiveIdleTimeout, if_pos rfl]
    simp only [decide_eq_true_eq]
    exact hlt

/-- C9 witness: base timeout 100 and slice 30 — no termination at 270
ticks (≤ 300), termination at the 11th slice, 330 ≤ 300 + 30. -/
theorem spec_C9_keepalive_timeout_witness :
    keepAliveLoopTerminatesAt true 100 30 9 = false
    ∧ keepAliveLoopTerminatesAt true 100 30 (3 * 100 / 30 + 1) = true
    ∧ effectiveIdleTimeout (observeConnectionClose true) 100 = 100 :=
  ⟨(spec_C9_keepalive_timeout 100 30 (by decide)).1 9 (by decide),
    (spec_C9_keepalive_timeout 100 30 (by decide)).2.1,
    (spec_C9_keepalive_timeout 100 30 (by decide)).2.2.2.2⟩
